import Mathlib

/-!
Verification of the multi-tenant content visibility and credential vault
subsystem of the `apollos` backend: a shallow embedding of the role-based
access control helpers, the content delete/share endpoints, the token vault
(key derivation, AES-GCM-style AEAD glue, base64 framing), the key-rotation
management command and the OAuth token refresh lifecycle, together with
theorems settling the specification's claims about them.
-/

/-! ## Data model: users, teams, memberships (from `apollos/database/models`) -/

structure ApollosUser where
  id : Nat
  is_org_admin : Bool
  is_staff : Bool
  deriving Repr, DecidableEq

structure Team where
  id : Nat
  slug : String
  name : String
  deriving Repr, DecidableEq

structure TeamMembership where
  user_id : Nat
  team_id : Nat
  role : String
  deriving Repr, DecidableEq

/-- Visibility tiers of a content item.  The persisted enum values are the
strings `"private"`, `"team"` and `"org"` (`Entry.Visibility` in the models);
we represent them as an inductive. -/
inductive Visibility where
  | priv
  | team
  | org
  deriving Repr, DecidableEq, BEq

/-- An `Entry` content row: owned by exactly one of a user or an agent,
carrying a visibility tier and an optional team reference. -/
structure Entry where
  id : Nat
  user_id : Option Nat
  agent_id : Option Nat
  team_id : Option Nat
  visibility : Visibility
  file_path : String
  shared_by : Option Nat
  deriving Repr, DecidableEq

/-- An agent principal (only its identity matters for the access filter). -/
structure Agent where
  id : Nat
  deriving Repr, DecidableEq

/-- The relational store the endpoints query: teams, membership rows and
content entries. -/
structure Db where
  teams : List Team
  memberships : List TeamMembership
  entries : List Entry
  deriving Repr, DecidableEq

/-- `Team.objects.filter(slug=team_slug).first()`. -/
def findTeamBySlug (db : Db) (slug : String) : Option Team :=
  db.teams.find? (fun t => t.slug == slug)

/-- `Team.objects.get(id=team_id)` as an optional lookup
(`Team.DoesNotExist` becomes `none`). -/
def findTeamById (db : Db) (tid : Nat) : Option Team :=
  db.teams.find? (fun t => t.id == tid)

/-! ## RoleResolver (from `apollos/routers/auth_helpers.py`) -/

/-- `ROLE_HIERARCHY.get(r, 0)`: the dictionary maps
`member ↦ 0`, `team_lead ↦ 1`, `admin ↦ 2`, and the `.get` default maps any
other string to `0`. -/
def roleLevel (r : String) : Nat :=
  if r == "member" then 0
  else if r == "team_lead" then 1
  else if r == "admin" then 2
  else 0

/-- `get_user_role_in_team`: the single membership row for (user, team),
or `None` when the user is not a member. -/
def get_user_role_in_team (db : Db) (user : ApollosUser) (team : Team) : Option String :=
  (db.memberships.find? (fun m => m.user_id == user.id && m.team_id == team.id)).map
    (fun m => m.role)

/-- An HTTP error raised by an endpoint helper (`HTTPException`). -/
structure HttpErr where
  status : Nat
  detail : String
  deriving Repr, DecidableEq

/-- `require_team_role(request, team_slug, min_role)`.  The request's
principal is `none` for an unauthenticated caller, `some user` otherwise.
Translated clause by clause from `auth_helpers.require_team_role`. -/
def require_team_role (db : Db) (principal : Option ApollosUser) (team_slug : String)
    (min_role : String) : Except HttpErr (ApollosUser × Team) :=
  match principal with
  | none => .error ⟨401, "Authentication required"⟩
  | some user =>
    if user.is_org_admin || user.is_staff then
      match findTeamBySlug db team_slug with
      | none => .error ⟨404, "Team not found"⟩
      | some team => .ok (user, team)
    else
      match findTeamBySlug db team_slug with
      | none => .error ⟨404, "Team not found"⟩
      | some team =>
        match get_user_role_in_team db user team with
        | none => .error ⟨403, "Not a member of this team"⟩
        | some role =>
          if roleLevel role < roleLevel min_role then
            .error ⟨403, "Requires " ++ min_role ++ " role or higher"⟩
          else
            .ok (user, team)

/-! ## AccessPredicate Builder -/

/-- `get_user_team_ids(user)`: ids of the teams the user belongs to; `[]`
for `None` (matches `tests/test_data_isolation.py::TestGetUserTeamIds`). -/
def get_user_team_ids (db : Db) (user : Option ApollosUser) : List Nat :=
  match user with
  | none => []
  | some u => (db.memberships.filter (fun m => m.user_id == u.id)).map (fun m => m.team_id)

/-- Modelled from the spec: `build_entry_access_filter(user, agent)` of
`apollos.database.adapters` is not part of the provided sources (only its
tests are), so the predicate is modelled from the spec's AccessPredicate
Builder algorithm (section 4.2): (1) if both principal and agent are absent
the predicate matches nothing — pinned by
`tests/test_data_isolation.py::test_none_user_none_agent_returns_empty`,
which asserts the empty filter `Q(pk__in=[])`; (2) if an agent is supplied
the predicate matches exactly the items owned by that agent; (3) otherwise,
for an authenticated principal, the OR of the organization clause, the
private-ownership clause and the team-membership clause (any role in the
team grants read visibility). -/
def build_entry_access_filter (db : Db) (user : Option ApollosUser) (agent : Option Agent)
    (e : Entry) : Bool :=
  match user, agent with
  | none, none => false
  | _, some a => e.agent_id == some a.id
  | some u, none =>
      (e.visibility == Visibility.org)
      || (e.visibility == Visibility.priv && e.user_id == some u.id)
      || (e.visibility == Visibility.team
            && (match e.team_id with
                | some t => (get_user_team_ids db (some u)).contains t
                | none => false))

/-! ## VisibilityGuard: delete permission (from `apollos/routers/api_content.py`) -/

/-- The per-team loop of `_check_delete_permission_for_entries`: for each
distinct team id referenced by a team-visible target, a missing team is
skipped (`Team.DoesNotExist: continue`), and a member below `team_lead`
(or a non-member) is rejected with a 403 naming the team. -/
def check_team_delete_violations (db : Db) (user : ApollosUser) : List Nat → Option HttpErr
  | [] => none
  | tid :: rest =>
    match findTeamById db tid with
    | none => check_team_delete_violations db user rest
    | some team =>
      match get_user_role_in_team db user team with
      | none =>
          some ⟨403, "Requires team_lead role or higher in team '" ++ team.name
                  ++ "' to delete team content"⟩
      | some role =>
          if roleLevel role < roleLevel "team_lead" then
            some ⟨403, "Requires team_lead role or higher in team '" ++ team.name
                    ++ "' to delete team content"⟩
          else
            check_team_delete_violations db user rest

/-- `_check_delete_permission_for_entries(user, entries_qs)`: org-visible
targets require an org admin; team-visible targets require `team_lead` or
higher in each referenced team (admins bypass both).  Returns `some err`
when the corresponding `HTTPException` would be raised. -/
def check_delete_permission (db : Db) (user : ApollosUser) (entries : List Entry) :
    Option HttpErr :=
  let is_admin := user.is_org_admin || user.is_staff
  let has_org_entries := entries.any (fun e => e.visibility == Visibility.org)
  if has_org_entries && !is_admin then
    some ⟨403, "Only admins can delete org-wide content"⟩
  else if !is_admin then
    let team_entries := entries.filter (fun e => e.visibility == Visibility.team)
    let team_ids := (team_entries.filterMap (fun e => e.team_id)).eraseDups
    check_team_delete_violations db user team_ids
  else
    none

/-- The target set of `delete_content_file`:
`DbEntry.objects.filter(user=user, file_path__in=files.files)`. -/
def delete_targets (db : Db) (user : ApollosUser) (files : List String) : List Entry :=
  db.entries.filter (fun e => e.user_id == some user.id && files.contains e.file_path)

/-- `delete_content_file(request, files)`: scopes the queryset to the
caller's entries at the requested paths, runs the delete-permission check,
and only then deletes the matching entries, returning the deleted count.
A raised permission error leaves the store untouched. -/
def delete_content_file (db : Db) (user : ApollosUser) (files : List String) :
    Except HttpErr (Db × Nat) :=
  let targets := delete_targets db user files
  match check_delete_permission db user targets with
  | some err => .error err
  | none =>
    let remaining := db.entries.filter
      (fun e => !(e.user_id == some user.id && files.contains e.file_path))
    .ok ({ db with entries := remaining }, db.entries.length - remaining.length)

/-! ## VisibilityGuard: share transition (from `apollos/routers/api_content.py`) -/

/-- The field update applied by `share_content`'s
`DbEntry.objects.filter(user=user, file_path=file_path).update(...)`:
sets `visibility` to the target tier, records `shared_by`, and sets `team`
when a destination team was resolved. -/
def share_update (user : ApollosUser) (fp : String) (vis : Visibility)
    (team : Option Team) (e : Entry) : Entry :=
  if e.user_id == some user.id && e.file_path == fp then
    { e with
        visibility := vis
        shared_by := some user.id
        team_id := match team with
          | some t => some t.id
          | none => e.team_id }
  else e

/-- `share_content(request)`: validates the body, enforces the
promote-permission rules (org target needs an admin; team target needs the
team to exist and the caller to be a member or admin), then updates every
entry of the caller at the given path.  `target_visibility` and the slug
are the raw body fields (`None` when absent; empty strings are falsy). -/
def share_content (db : Db) (user : ApollosUser) (file_path : Option String)
    (target_visibility : Option String) (team_slug : Option String) :
    Except HttpErr (Db × Nat × String) :=
  match file_path, target_visibility with
  | none, _ => .error ⟨400, "file_path and visibility are required"⟩
  | _, none => .error ⟨400, "file_path and visibility are required"⟩
  | some fp, some tv =>
    if fp == "" || tv == "" then .error ⟨400, "file_path and visibility are required"⟩
    else if !(tv == "team" || tv == "org") then
      .error ⟨400, "visibility must be 'team' or 'org'"⟩
    else if tv == "org" && !(user.is_org_admin || user.is_staff) then
      .error ⟨403, "Only admins can share to organization"⟩
    else
      let proceed : Option Team → Except HttpErr (Db × Nat × String) := fun target_team =>
        let vis := if tv == "team" then Visibility.team else Visibility.org
        let updated := db.entries.map (share_update user fp vis target_team)
        let count := (db.entries.filter
          (fun e => e.user_id == some user.id && e.file_path == fp)).length
        if count == 0 then .error ⟨404, "No entries found for this file"⟩
        else .ok ({ db with entries := updated }, count, tv)
      if tv == "team" then
        match team_slug with
        | none => .error ⟨400, "team_slug required for team sharing"⟩
        | some sl =>
          if sl == "" then .error ⟨400, "team_slug required for team sharing"⟩
          else
            match findTeamBySlug db sl with
            | none => .error ⟨404, "Team not found"⟩
            | some target_team =>
              let is_member := db.memberships.any
                (fun m => m.user_id == user.id && m.team_id == target_team.id)
              if !is_member && !(user.is_org_admin || user.is_staff) then
                .error ⟨403, "You are not a member of this team"⟩
              else
                proceed (some target_team)
      else
        proceed none

/-- Rank of a visibility tier in the order `private < team < organization`
(used to state the downgrade question). -/
def visRank : Visibility → Nat
  | Visibility.priv => 0
  | Visibility.team => 1
  | Visibility.org => 2

/-! ## CryptoVault (from `apollos/utils/crypto.py`)

Bytes are naturals below 256; byte strings are lists of naturals.  The
standard base64 framing used by `encrypt_token`/`decrypt_token` is embedded
concretely (output is the list of ASCII codes).  The AEAD cipher (AES-256-GCM
of the `cryptography` library), HKDF-SHA256 and UTF-8 text codec are external
primitives the vault glues together; they are parameters of the embedding,
and the theorems assume exactly their contractual properties (AEAD
decryption inverts encryption under the same key and nonce, UTF-8 decoding
inverts encoding, ciphertext output is bytes). -/

/-- Value of the base64 alphabet at index `s` (ASCII code). -/
def sextetToChar (s : Nat) : Nat :=
  if s < 26 then 65 + s
  else if s < 52 then 97 + (s - 26)
  else if s < 62 then 48 + (s - 52)
  else if s = 62 then 43
  else 47

/-- Index of an ASCII code in the base64 alphabet (0 for non-alphabet). -/
def charToSextet (c : Nat) : Nat :=
  if 65 ≤ c ∧ c ≤ 90 then c - 65
  else if 97 ≤ c ∧ c ≤ 122 then c - 71
  else if 48 ≤ c ∧ c ≤ 57 then c + 4
  else if c = 43 then 62
  else if c = 47 then 63
  else 0

/-- `base64.b64encode` over byte lists, producing the padded ASCII codes. -/
def b64encodeBytes : List Nat → List Nat
  | [] => []
  | [a] => [sextetToChar (a / 4), sextetToChar (a % 4 * 16), 61, 61]
  | [a, b] => [sextetToChar (a / 4), sextetToChar (a % 4 * 16 + b / 16),
               sextetToChar (b % 16 * 4), 61]
  | a :: b :: c :: rest =>
      sextetToChar (a / 4) :: sextetToChar (a % 4 * 16 + b / 16)
        :: sextetToChar (b % 16 * 4 + c / 64) :: sextetToChar (c % 64)
        :: b64encodeBytes rest

/-- `base64.b64decode` over ASCII codes of a correctly padded input. -/
def b64decodeBytes : List Nat → List Nat
  | c1 :: c2 :: c3 :: c4 :: rest =>
      let v1 := charToSextet c1
      let v2 := charToSextet c2
      let v3 := charToSextet c3
      let v4 := charToSextet c4
      if c3 = 61 then [v1 * 4 + v2 / 16]
      else if c4 = 61 then [v1 * 4 + v2 / 16, v2 % 16 * 16 + v3 / 4]
      else (v1 * 4 + v2 / 16) :: (v2 % 16 * 16 + v3 / 4) :: (v3 % 4 * 64 + v4)
             :: b64decodeBytes rest
  | _ => []

theorem charToSextet_sextetToChar {s : Nat} (h : s < 64) :
    charToSextet (sextetToChar s) = s := by
  have hall : ∀ t : Fin 64, charToSextet (sextetToChar t.val) = t.val := by decide
  exact hall ⟨s, h⟩

theorem sextetToChar_ne_61 {s : Nat} : sextetToChar s ≠ 61 := by
  unfold sextetToChar
  split
  · omega
  split
  · omega
  split
  · omega
  split
  · omega
  omega

/-- Base64 round trip on byte lists. -/
theorem b64decode_b64encode (l : List Nat) (hb : ∀ b ∈ l, b < 256) :
    b64decodeBytes (b64encodeBytes l) = l := by
  induction l using b64encodeBytes.induct with
  | case1 => rfl
  | case2 a =>
      have ha : a < 256 := hb a (by simp)
      have h1 : a / 4 < 64 := by omega
      have h2 : a % 4 * 16 < 64 := by omega
      simp only [b64encodeBytes, b64decodeBytes, reduceIte,
        charToSextet_sextetToChar h1, charToSextet_sextetToChar h2,
        List.cons.injEq, and_true]
      omega
  | case3 a b =>
      have ha : a < 256 := hb a (by simp)
      have hbb : b < 256 := hb b (by simp)
      have h1 : a / 4 < 64 := by omega
      have h2 : a % 4 * 16 + b / 16 < 64 := by omega
      have h3 : b % 16 * 4 < 64 := by omega
      simp only [b64encodeBytes, b64decodeBytes]
      rw [if_neg sextetToChar_ne_61]
      simp only [reduceIte, charToSextet_sextetToChar h1, charToSextet_sextetToChar h2,
        charToSextet_sextetToChar h3, List.cons.injEq, and_true]
      constructor
      · omega
      · omega
  | case4 a b c rest ih =>
      have ha : a < 256 := hb a (by simp)
      have hbb : b < 256 := hb b (by simp)
      have hc : c < 256 := hb c (by simp)
      have h1 : a / 4 < 64 := by omega
      have h2 : a % 4 * 16 + b / 16 < 64 := by omega
      have h3 : b % 16 * 4 + c / 64 < 64 := by omega
      have h4 : c % 64 < 64 := by omega
      have hrest : ∀ x ∈ rest, x < 256 := fun x hx => hb x (by simp [hx])
      simp only [b64encodeBytes, b64decodeBytes]
      rw [if_neg sextetToChar_ne_61, if_neg sextetToChar_ne_61]
      simp only [charToSextet_sextetToChar h1, charToSextet_sextetToChar h2,
        charToSextet_sextetToChar h3, charToSextet_sextetToChar h4,
        ih hrest, List.cons.injEq, and_true]
      omega

/-- The external cryptographic primitives `crypto.py` composes: the HKDF
key-derivation function, the AES-256-GCM AEAD cipher (encryption takes key,
nonce, message; decryption returns `none` on an authentication failure), and
the UTF-8 text codec. -/
structure CryptoPrims where
  hkdf : String → String → List Nat
  aeadEnc : List Nat → List Nat → List Nat → List Nat
  aeadDec : List Nat → List Nat → List Nat → Option (List Nat)
  utf8enc : String → List Nat
  utf8dec : List Nat → Option String

/-- The fixed purpose-context label of the vault. -/
def mcpContext : String := "mcp-token-encryption"

/-- `_get_master_key()`: reads `APOLLOS_VAULT_MASTER_KEY` from the
environment at call time and fails fast when it is unset or shorter than 32
characters. -/
def get_master_key (env : String) : Except String String :=
  if env == "" || env.length < 32 then
    .error "APOLLOS_VAULT_MASTER_KEY must be set and at least 32 characters"
  else
    .ok env

/-- `derive_key(master_key, context)`: HKDF-SHA256, no salt, info = context,
32-byte output (the HKDF primitive itself is the `hkdf` parameter). -/
def derive_key (P : CryptoPrims) (master_key : String) (context : String) : List Nat :=
  P.hkdf master_key context

/-- `encrypt_token(plaintext)`: derives the purpose-scoped key from the
environment master key, encrypts the UTF-8 bytes under a fresh 12-byte
nonce (made an explicit argument here), and returns
`base64(nonce ‖ ciphertext‖tag)`. -/
def encrypt_token (P : CryptoPrims) (env : String) (nonce : List Nat) (plaintext : String) :
    Except String (List Nat) :=
  match get_master_key env with
  | .error e => .error e
  | .ok mk =>
    let key := derive_key P mk mcpContext
    let ct := P.aeadEnc key nonce (P.utf8enc plaintext)
    .ok (b64encodeBytes (nonce ++ ct))

/-- `decrypt_token(encrypted)`: base64-decodes, splits the first 12 bytes as
the nonce and the rest as ciphertext+tag, and decrypts under the same
purpose-scoped key. -/
def decrypt_token (P : CryptoPrims) (env : String) (encrypted : List Nat) :
    Except String String :=
  match get_master_key env with
  | .error e => .error e
  | .ok mk =>
    let key := derive_key P mk mcpContext
    let data := b64decodeBytes encrypted
    let nonce := data.take 12
    let ct := data.drop 12
    match P.aeadDec key nonce ct with
    | none => .error "InvalidTag"
    | some pt =>
      match P.utf8dec pt with
      | none => .error "UnicodeDecodeError"
      | some s => .ok s

/-! ## ServiceConnection rows and key rotation
(from `apollos/database/management/commands/rotate_vault_key.py`) -/

inductive ConnStatus where
  | connected
  | error
  | revoked
  deriving Repr, DecidableEq, BEq

/-- A `McpUserConnection` row.  Token fields hold the persisted (encrypted,
base64) values as ASCII code lists; `none` is SQL NULL. -/
structure McpUserConnection where
  id : Nat
  access_token : Option (List Nat)
  refresh_token : Option (List Nat)
  token_expires_at : Option Nat
  status : ConnStatus
  error_message : Option String
  deriving Repr, DecidableEq

/-- Rotate one secret field of a connection: decode the base64 value, split
the 12-byte nonce, decrypt under the key derived from the old master key,
and re-encrypt via `encrypt_token` under the current environment key with a
fresh nonce.  `none` models the exception path (decrypt or encrypt
failure). -/
def rotate_field (P : CryptoPrims) (old_derived : List Nat) (env : String)
    (fresh_nonce : List Nat) (value : Option (List Nat)) :
    Option (Option (List Nat)) :=
  match value with
  | none => some none
  | some v =>
    if v.isEmpty then some (some v)
    else
      let data := b64decodeBytes v
      let nonce := data.take 12
      let ct := data.drop 12
      match P.aeadDec old_derived nonce ct with
      | none => none
      | some pt =>
        match P.utf8dec pt with
        | none => none
        | some plaintext =>
          match encrypt_token P env fresh_nonce plaintext with
          | .error _ => none
          | .ok c => some (some c)

/-- Rotate one connection row: both secret fields are re-encrypted and the
row saved atomically; any exception leaves the row unchanged and counts as
an error (the command catches it, logs, and continues). -/
def rotate_connection (P : CryptoPrims) (old_derived : List Nat) (env : String)
    (nonceA nonceR : List Nat) (conn : McpUserConnection) : Option McpUserConnection :=
  match rotate_field P old_derived env nonceA conn.access_token with
  | none => none
  | some a =>
    match rotate_field P old_derived env nonceR conn.refresh_token with
    | none => none
    | some r => some { conn with access_token := a, refresh_token := r }

/-- Outcome reported by the rotation command. -/
inductive RotateOutcome where
  | errOldKeyShort
  | errNewKeyMissing
  | errSameKey
  | dryRunReport (total : Nat)
  | done (success : Nat) (errors : Nat) (total : Nat)
  deriving Repr, DecidableEq

/-- The re-encryption loop over the selected connections; `nonces` supplies
the fresh random nonces (two per record). -/
def rotate_loop (P : CryptoPrims) (old_derived : List Nat) (env : String)
    (nonces : Nat → List Nat) (idx : Nat) :
    List McpUserConnection → (Nat × Nat × List McpUserConnection)
  | [] => (0, 0, [])
  | conn :: rest =>
    let head := rotate_connection P old_derived env (nonces (2 * idx)) (nonces (2 * idx + 1)) conn
    let tail := rotate_loop P old_derived env nonces (idx + 1) rest
    match head with
    | none => (tail.1, tail.2.1 + 1, conn :: tail.2.2)
    | some conn2 => (tail.1 + 1, tail.2.1, conn2 :: tail.2.2)

/-- `Command.handle` of `rotate_vault_key`: validates the old key length,
the presence/length of the new environment key, and that the keys differ —
each violation aborts before touching any record; dry-run reports the
affected count and also returns untouched.  Otherwise every connection with
a non-empty access token is re-encrypted record by record. -/
def rotate_handle (P : CryptoPrims) (old_key : String) (dry_run : Bool) (env : String)
    (nonces : Nat → List Nat) (conns : List McpUserConnection) :
    RotateOutcome × List McpUserConnection :=
  if old_key.length < 32 then (.errOldKeyShort, conns)
  else if env == "" || env.length < 32 then (.errNewKeyMissing, conns)
  else if old_key == env then (.errSameKey, conns)
  else
    let selected := conns.filter
      (fun c => match c.access_token with
        | none => false
        | some v => !v.isEmpty)
    if dry_run then (.dryRunReport selected.length, conns)
    else
      let old_derived := derive_key P old_key mcpContext
      let untouched := conns.filter
        (fun c => match c.access_token with
          | none => true
          | some v => v.isEmpty)
      let result := rotate_loop P old_derived env nonces 0 selected
      (.done result.1 result.2.1 selected.length, result.2.2 ++ untouched)

/-! ## TokenLifecycle Manager
(from `apollos/processor/tools/mcp_oauth.py` and
`apollos/utils/mcp_maintenance.py`) -/

/-- The token endpoint's response to the refresh POST (status code and the
relevant JSON fields; a missing field is `none`). -/
structure TokenResponse where
  status : Nat
  new_access_token : Option String
  new_refresh_token : Option String
  expires_in : Option Nat
  deriving Repr, DecidableEq

/-- A `McpServiceRegistry` row (the fields `refresh_access_token` reads). -/
structure McpService where
  oauth_client_id : String
  oauth_client_secret : Option String
  deriving Repr, DecidableEq

/-- A connection row as seen by the refresh flow: token fields are the
persisted encrypted strings. -/
structure RefreshConn where
  access_token : Option String
  refresh_token : Option String
  token_expires_at : Option Nat
  status : ConnStatus
  error_message : Option String
  deriving Repr, DecidableEq

/-- `McpOAuthClient.refresh_access_token(connection)`.  The ambient effects
are explicit parameters: `dec`/`enc` are the vault's decrypt/encrypt (with
`none` modelling a raised decryption error), `resp` is the token endpoint's
response, `now` the current time.  The result is `none` when an exception
propagates, otherwise the returned boolean together with the updated row.
On a non-2xx response the row transitions to `error` with a recorded
message; on success the new tokens are stored encrypted, expiry is
recomputed and the row stays `connected`. -/
def refresh_access_token (dec : String → Option String) (enc : String → String)
    (svc : McpService) (resp : TokenResponse) (now : Nat) (conn : RefreshConn) :
    Option (Bool × RefreshConn) :=
  match conn.refresh_token with
  | none => some (false, conn)
  | some enc_rt =>
    match dec enc_rt with
    | none => none
    | some _rt =>
      let secret_ok : Bool :=
        match svc.oauth_client_secret with
        | none => true
        | some es => (dec es).isSome
      if !secret_ok then none
      else if resp.status ≠ 200 then
        some (false,
          { conn with
              status := ConnStatus.error
              error_message := some ("Refresh failed: " ++ toString resp.status) })
      else
        match resp.new_access_token with
        | none => none
        | some tok =>
          let c1 := { conn with access_token := some (enc tok) }
          let c2 :=
            match resp.new_refresh_token with
            | some rt => { c1 with refresh_token := some (enc rt) }
            | none => c1
          let c3 :=
            match resp.expires_in with
            | some s => { c2 with token_expires_at := some (now + s) }
            | none => c2
          some (true,
            { c3 with status := ConnStatus.connected, error_message := none })

/-- The selection predicate of the periodic sweep
(`_refresh_expiring_mcp_tokens`):
`status=CONNECTED, token_expires_at < now + 1 hour, refresh_token not null`. -/
def sweep_selects (now : Nat) (c : RefreshConn) : Bool :=
  c.status == ConnStatus.connected
    && (match c.token_expires_at with
        | some e => decide (e < now + 3600)
        | none => false)
    && c.refresh_token.isSome

/-! ## Concrete fixtures used by the witnesses -/

/-- A store with one team and two membership rows. -/
def rbacDb : Db :=
  { teams := [⟨1, "eng", "Engineering"⟩]
    memberships := [⟨2, 1, "team_lead"⟩, ⟨3, 1, "member"⟩]
    entries := [] }

def leadUser : ApollosUser := ⟨2, false, false⟩

def outsiderUser : ApollosUser := ⟨7, false, false⟩

/-! ## Theorems -/

/-- C3: `require_team_role` fails with 401 for an unauthenticated principal;
a missing team yields 404 before any role check (for admins and non-members
alike); org-admin or staff principals succeed on any existing team without a
membership row; a member with role `r` succeeds exactly when
`roleLevel min_role ≤ roleLevel r` and otherwise fails 403 naming the
minimum role; an authenticated non-member of an existing team fails with the
403 "Not a member of this team", never 404. -/
theorem require_team_role_spec (db : Db) (slug min_role : String) :
    require_team_role db none slug min_role = .error ⟨401, "Authentication required"⟩
    ∧ (∀ u : ApollosUser, findTeamBySlug db slug = none →
        require_team_role db (some u) slug min_role = .error ⟨404, "Team not found"⟩)
    ∧ (∀ u t, (u.is_org_admin || u.is_staff) = true → findTeamBySlug db slug = some t →
        require_team_role db (some u) slug min_role = .ok (u, t))
    ∧ (∀ u t r, (u.is_org_admin || u.is_staff) = false → findTeamBySlug db slug = some t →
        get_user_role_in_team db u t = some r →
        require_team_role db (some u) slug min_role =
          (if roleLevel min_role ≤ roleLevel r then .ok (u, t)
           else .error ⟨403, "Requires " ++ min_role ++ " role or higher"⟩))
    ∧ (∀ u t, (u.is_org_admin || u.is_staff) = false → findTeamBySlug db slug = some t →
        get_user_role_in_team db u t = none →
        require_team_role db (some u) slug min_role =
          .error ⟨403, "Not a member of this team"⟩) := by
  refine ⟨rfl, ?_, ?_, ?_, ?_⟩
  · intro u hteam
    cases hadm : (u.is_org_admin || u.is_staff) <;>
      simp [require_team_role, hadm, hteam]
  · intro u t hadm hteam
    simp [require_team_role, hadm, hteam]
  · intro u t r hadm hteam hrole
    simp only [require_team_role, hadm, Bool.false_eq_true, if_false, hteam, hrole]
    by_cases h : roleLevel r < roleLevel min_role
    · rw [if_pos h, if_neg (by omega)]
    · rw [if_neg h, if_pos (by omega)]
  · intro u t hadm hteam hrole
    simp [require_team_role, hadm, hteam, hrole]

/-- Witness for C3: in the concrete store, a `team_lead` passes
`min_role="member"` and `"team_lead"` but fails `"admin"`, a non-member
fails with the membership 403, and an anonymous caller gets 401. -/
theorem require_team_role_spec_witness :
    require_team_role rbacDb (some leadUser) "eng" "member"
        = .ok (leadUser, ⟨1, "eng", "Engineering"⟩)
    ∧ require_team_role rbacDb (some leadUser) "eng" "team_lead"
        = .ok (leadUser, ⟨1, "eng", "Engineering"⟩)
    ∧ require_team_role rbacDb (some leadUser) "eng" "admin"
        = .error ⟨403, "Requires admin role or higher"⟩
    ∧ require_team_role rbacDb (some outsiderUser) "eng" "member"
        = .error ⟨403, "Not a member of this team"⟩
    ∧ require_team_role rbacDb none "eng" "member"
        = .error ⟨401, "Authentication required"⟩ := by
  refine ⟨?_, ?_, ?_, ?_, ?_⟩
  · exact ((require_team_role_spec rbacDb "eng" "member").2.2.2.1 leadUser
      ⟨1, "eng", "Engineering"⟩ "team_lead" rfl rfl rfl).trans (by rfl)
  · exact ((require_team_role_spec rbacDb "eng" "team_lead").2.2.2.1 leadUser
      ⟨1, "eng", "Engineering"⟩ "team_lead" rfl rfl rfl).trans (by rfl)
  · exact ((require_team_role_spec rbacDb "eng" "admin").2.2.2.1 leadUser
      ⟨1, "eng", "Engineering"⟩ "team_lead" rfl rfl rfl).trans (by rfl)
  · exact (require_team_role_spec rbacDb "eng" "member").2.2.2.2 outsiderUser
      ⟨1, "eng", "Engineering"⟩ rfl rfl rfl
  · exact (require_team_role_spec rbacDb "eng" "member").1

/-- C10: an unrecognized `min_role` string defaults to rank 0 in the
`ROLE_HIERARCHY` lookup, so any authenticated non-admin member of an
existing team passes the check, whatever their role. -/
theorem require_team_role_unknown_min_role (db : Db) (u : ApollosUser) (t : Team)
    (slug min_role r : String)
    (hadm : (u.is_org_admin || u.is_staff) = false)
    (hteam : findTeamBySlug db slug = some t)
    (hrole : get_user_role_in_team db u t = some r)
    (hm1 : min_role ≠ "member") (hm2 : min_role ≠ "team_lead") (hm3 : min_role ≠ "admin") :
    require_team_role db (some u) slug min_role = .ok (u, t) := by
  have hlvl : roleLevel min_role = 0 := by
    simp [roleLevel, hm1, hm2, hm3]
  simp [require_team_role, hadm, hteam, hrole, hlvl]

/-- Witness for C10: the typo `min_role="admins"` lets a plain member
through. -/
theorem require_team_role_unknown_min_role_witness :
    require_team_role rbacDb (some leadUser) "eng" "admins"
      = .ok (leadUser, ⟨1, "eng", "Engineering"⟩) :=
  require_team_role_unknown_min_role rbacDb leadUser ⟨1, "eng", "Engineering"⟩
    "eng" "admins" "team_lead" rfl rfl rfl
    (by decide) (by decide) (by decide)

/-- A store with one team, no memberships, and an org admin who is not a
member of anything. -/
def adminOnlyDb : Db :=
  { teams := [⟨1, "eng", "Engineering"⟩], memberships := [], entries := [] }

def orgAdminUser : ApollosUser := ⟨9, true, false⟩

/-- A team-visible entry of team 1 owned by user 2. -/
def teamEntry : Entry := ⟨1, some 2, none, some 1, Visibility.team, "a.md", none⟩

/-- C1 counterexample: an org admin with no membership in team 1 does not
match the team-visible entry, although the claim's right-hand side (any
membership in the team OR org-admin/staff) holds, so the stated equivalence
fails at this input. -/
theorem team_filter_admin_counterexample :
    ¬(build_entry_access_filter adminOnlyDb (some orgAdminUser) none teamEntry = true ↔
      ((∃ m ∈ adminOnlyDb.memberships, m.user_id = orgAdminUser.id ∧ m.team_id = 1)
        ∨ orgAdminUser.is_org_admin = true ∨ orgAdminUser.is_staff = true)) := by
  decide

/-- C1 amended: for a team-visible entry of team `t`, the access filter for
an authenticated user matches exactly when the user has some membership row
in `t` (whatever the role); org-admin/staff status confers no extra read
visibility in the filter. -/
theorem team_filter_iff_membership (db : Db) (u : ApollosUser) (e : Entry) (t : Nat)
    (hv : e.visibility = Visibility.team) (ht : e.team_id = some t) :
    build_entry_access_filter db (some u) none e = true ↔
      ∃ m ∈ db.memberships, m.user_id = u.id ∧ m.team_id = t := by
  unfold build_entry_access_filter
  rw [hv, ht]
  simp only [show (Visibility.team == Visibility.org) = false from rfl,
    show (Visibility.team == Visibility.priv) = false from rfl,
    show (Visibility.team == Visibility.team) = true from rfl,
    Bool.false_and, Bool.true_and, Bool.false_or, Bool.or_false]
  unfold get_user_team_ids
  simp only [List.elem_eq_mem, List.mem_map, List.mem_filter, decide_eq_true_eq,
    beq_iff_eq]
  constructor
  · rintro ⟨m, ⟨hm, hmu⟩, hmt⟩
    exact ⟨m, hm, hmu, hmt⟩
  · rintro ⟨m, hm, hmu, hmt⟩
    exact ⟨m, ⟨hm, hmu⟩, hmt⟩

/-- Witness for C1 amended: user 2 is a member of team 1 and matches the
team entry; in the membership-free store the admin does not. -/
theorem team_filter_iff_membership_witness :
    (build_entry_access_filter rbacDb (some leadUser) none teamEntry = true
      ↔ ∃ m ∈ rbacDb.memberships, m.user_id = leadUser.id ∧ m.team_id = 1)
    ∧ build_entry_access_filter rbacDb (some leadUser) none teamEntry = true := by
  refine ⟨team_filter_iff_membership rbacDb leadUser teamEntry 1 rfl rfl, ?_⟩
  exact (team_filter_iff_membership rbacDb leadUser teamEntry 1 rfl rfl).mpr
    ⟨⟨2, 1, "team_lead"⟩, by decide, by decide⟩

/-- An ownerless (admin-managed) organization-wide entry. -/
def orgEntryNoOwner : Entry := ⟨3, none, none, none, Visibility.org, "o.md", none⟩

/-- C2 counterexample: the access filter built for a fully anonymous request
(`user=None`, `agent=None`) is the empty filter — pinned by
`test_none_user_none_agent_returns_empty` — so it does not match the
ownerless organization-wide entry, although the claim's condition (owner
absent) holds; the stated equivalence fails at this input. -/
theorem anonymous_filter_counterexample :
    ¬(build_entry_access_filter adminOnlyDb none none orgEntryNoOwner = true ↔
      orgEntryNoOwner.user_id = none) := by
  decide

/-- C2 amended: for entries not owned by an agent, a private entry is
matched exactly by its owner's filter, an organization-wide entry is matched
by every authenticated user's filter, and the anonymous filter
(`buildFilter(None)`) matches nothing at all. -/
theorem private_org_filter_spec (db : Db) :
    (∀ (u : ApollosUser) (e : Entry), e.agent_id = none → e.visibility = Visibility.priv →
      (build_entry_access_filter db (some u) none e = true ↔ e.user_id = some u.id))
    ∧ (∀ (u : ApollosUser) (e : Entry), e.visibility = Visibility.org →
        build_entry_access_filter db (some u) none e = true)
    ∧ (∀ e : Entry, build_entry_access_filter db none none e = false) := by
  refine ⟨?_, ?_, ?_⟩
  · intro u e _hag hv
    unfold build_entry_access_filter
    rw [hv]
    simp only [show (Visibility.priv == Visibility.org) = false from rfl,
      show (Visibility.priv == Visibility.priv) = true from rfl,
      show (Visibility.priv == Visibility.team) = false from rfl,
      Bool.false_and, Bool.true_and, Bool.false_or, Bool.or_false, beq_iff_eq]
  · intro u e hv
    unfold build_entry_access_filter
    rw [hv]
    simp only [show (Visibility.org == Visibility.org) = true from rfl,
      Bool.true_or]
  · intro e
    rfl

/-- Witness for C2 amended: owner sees their private entry, a stranger does
not, everyone authenticated sees the org entry, the anonymous filter is
empty. -/
theorem private_org_filter_spec_witness :
    (build_entry_access_filter rbacDb (some leadUser) none
        ⟨4, some leadUser.id, none, none, Visibility.priv, "p.md", none⟩ = true
      ↔ (⟨4, some leadUser.id, none, none, Visibility.priv, "p.md", none⟩ : Entry).user_id
          = some leadUser.id)
    ∧ build_entry_access_filter rbacDb (some outsiderUser) none orgEntryNoOwner = true
    ∧ build_entry_access_filter rbacDb none none orgEntryNoOwner = false := by
  refine ⟨?_, ?_, ?_⟩
  · exact (private_org_filter_spec rbacDb).1 leadUser
      ⟨4, some leadUser.id, none, none, Visibility.priv, "p.md", none⟩ rfl rfl
  · exact (private_org_filter_spec rbacDb).2.1 outsiderUser orgEntryNoOwner rfl
  · exact (private_org_filter_spec rbacDb).2.2 orgEntryNoOwner

/-- C4: if any entry in the delete request's target set (the caller's
entries at the requested paths) is organization-visible and the caller is
not org-admin/staff, the whole request fails with the "admins only" 403; no
deletion is performed (the store is only rewritten in the `ok` branch). -/
theorem delete_denied_on_org_entry (db : Db) (user : ApollosUser) (files : List String)
    (hadmin : (user.is_org_admin || user.is_staff) = false)
    (horg : ∃ e ∈ delete_targets db user files, e.visibility = Visibility.org) :
    delete_content_file db user files =
      .error ⟨403, "Only admins can delete org-wide content"⟩ := by
  have hany : (delete_targets db user files).any
      (fun e => e.visibility == Visibility.org) = true := by
    rcases horg with ⟨e, he, hv⟩
    exact List.any_eq_true.mpr ⟨e, he, by rw [hv]; rfl⟩
  unfold delete_content_file check_delete_permission
  simp only [hany, hadmin, Bool.not_false, Bool.true_and, if_true]

/-- A store for the delete witness: user 1 owns one organization-wide entry
and one private entry. -/
def deleteDb : Db :=
  { teams := []
    memberships := []
    entries := [⟨1, some 1, none, none, Visibility.org, "o.md", none⟩,
                ⟨2, some 1, none, none, Visibility.priv, "p.md", none⟩] }

def plainUser : ApollosUser := ⟨1, false, false⟩

/-- Witness for C4: a mixed batch (one org-wide entry, one private entry the
caller owns) is rejected as a whole for a non-admin caller. -/
theorem delete_denied_on_org_entry_witness :
    delete_content_file deleteDb plainUser ["o.md", "p.md"] =
      .error ⟨403, "Only admins can delete org-wide content"⟩ :=
  delete_denied_on_org_entry deleteDb plainUser ["o.md", "p.md"] rfl
    ⟨⟨1, some 1, none, none, Visibility.org, "o.md", none⟩, by decide, rfl⟩

/-- Fields set by `share_update` on an entry of the caller at the shared
path: the sharing principal is recorded, the visibility becomes the target
tier, and the destination team is attached when one was resolved. -/
theorem share_update_fields (user : ApollosUser) (fp : String) (vis : Visibility)
    (tt : Option Team) (l : List Entry) (e2 : Entry)
    (h2 : e2 ∈ l.map (share_update user fp vis tt))
    (hu : e2.user_id = some user.id) (hf : e2.file_path = fp) :
    e2.shared_by = some user.id ∧ e2.visibility = vis
      ∧ (∀ t, tt = some t → e2.team_id = some t.id) := by
  rcases List.mem_map.mp h2 with ⟨e, he, heq⟩
  unfold share_update at heq
  by_cases hg : (e.user_id == some user.id && e.file_path == fp) = true
  · rw [if_pos hg] at heq
    subst heq
    refine ⟨rfl, rfl, ?_⟩
    intro t htt
    rw [htt]
  · rw [if_neg hg] at heq
    subst heq
    exact absurd (by simp [hu, hf]) hg

/-- The share downgrade scenario: user 1 owns an organization-wide entry at
`a.md` and is a plain member of team 5. -/
def c5User : ApollosUser := ⟨1, false, false⟩

def c5EntryBefore : Entry := ⟨1, some 1, none, none, Visibility.org, "a.md", none⟩

def c5Db : Db :=
  { teams := [⟨5, "eng", "Engineering"⟩]
    memberships := [⟨1, 5, "member"⟩]
    entries := [c5EntryBefore] }

def c5EntryAfter : Entry := ⟨1, some 1, none, some 5, Visibility.team, "a.md", some 1⟩

/-- C5 counterexample: sharing the caller's organization-wide entry to a
team is accepted and lowers its visibility from `organization` to `team` —
the call does downgrade visibility. -/
theorem share_content_downgrade_counterexample :
    share_content c5Db c5User (some "a.md") (some "team") (some "eng") =
      .ok ({ c5Db with entries := [c5EntryAfter] }, 1, "team")
    ∧ visRank c5EntryAfter.visibility < visRank c5EntryBefore.visibility := by
  exact ⟨rfl, by decide⟩

/-- C5 amended: an accepted share call records the sharing principal on
every entry of the caller at the shared path, sets its visibility to the
requested target tier — team or organization, never private, but possibly a
downgrade from organization to team — and, when sharing to a team, attaches
the destination team reference. -/
theorem share_content_updates (db : Db) (user : ApollosUser) (fp tv : String)
    (slug : Option String) (db2 : Db) (cnt : Nat) (rv : String)
    (h : share_content db user (some fp) (some tv) slug = .ok (db2, cnt, rv)) :
    ∀ e2 ∈ db2.entries, e2.user_id = some user.id → e2.file_path = fp →
      e2.shared_by = some user.id
        ∧ e2.visibility = (if tv = "team" then Visibility.team else Visibility.org)
        ∧ e2.visibility ≠ Visibility.priv
        ∧ (tv = "team" → ∃ sl t, slug = some sl ∧ findTeamBySlug db sl = some t
              ∧ e2.team_id = some t.id) := by
  simp only [share_content] at h
  split at h
  · exact absurd h (by simp)
  split at h
  · exact absurd h (by simp)
  split at h
  · exact absurd h (by simp)
  split at h
  case isTrue hteam =>
    split at h
    · exact absurd h (by simp)
    case h_2 sl =>
      split at h
      · exact absurd h (by simp)
      split at h
      · exact absurd h (by simp)
      case h_2 target hfind =>
        split at h
        · exact absurd h (by simp)
        split at h
        · exact absurd h (by simp)
        rw [Except.ok.injEq] at h
        obtain ⟨hdb, -, -⟩ := Prod.mk.injEq .. ▸ h
        intro e2 he2 hu hf
        rw [← hdb] at he2
        simp only [hteam, if_true] at he2
        have hfields := share_update_fields user fp Visibility.team (some target)
          db.entries e2 he2 hu hf
        have htv : tv = "team" := by simpa using hteam
        refine ⟨hfields.1, ?_, ?_, ?_⟩
        · rw [hfields.2.1, if_pos htv]
        · rw [hfields.2.1]
          decide
        · intro _
          exact ⟨sl, target, rfl, hfind, hfields.2.2 target rfl⟩
  case isFalse hteam =>
    split at h
    · exact absurd h (by simp)
    rw [Except.ok.injEq] at h
    obtain ⟨hdb, -, -⟩ := Prod.mk.injEq .. ▸ h
    intro e2 he2 hu hf
    rw [← hdb] at he2
    have hvfalse : (tv == "team") = false := by
      cases hb : (tv == "team")
      · rfl
      · exact absurd hb (by simpa using hteam)
    simp only [hvfalse, if_false] at he2
    have hfields := share_update_fields user fp Visibility.org none
      db.entries e2 he2 hu hf
    have htv2 : ¬tv = "team" := by simpa using hvfalse
    refine ⟨hfields.1, ?_, ?_, ?_⟩
    · rw [hfields.2.1, if_neg htv2]
    · rw [hfields.2.1]
      decide
    · intro htv
      exact absurd htv htv2

/-- Witness for C5 amended: after the accepted share in the downgrade
scenario, the updated entry records the sharing principal, is not private,
and carries the destination team. -/
theorem share_content_updates_witness :
    c5EntryAfter.shared_by = some c5User.id
      ∧ c5EntryAfter.visibility
          = (if ("team" : String) = "team" then Visibility.team else Visibility.org)
      ∧ c5EntryAfter.visibility ≠ Visibility.priv
      ∧ ("team" = "team" → ∃ sl t, (some "eng" : Option String) = some sl
            ∧ findTeamBySlug c5Db sl = some t ∧ c5EntryAfter.team_id = some t.id) := by
  have h := share_content_updates c5Db c5User "a.md" "team" (some "eng")
    { c5Db with entries := [c5EntryAfter] } 1 "team" rfl
  exact h c5EntryAfter (by decide) rfl rfl

/-- C6: the vault round-trips — decrypting the output of `encrypt_token`
under the same master key returns the original plaintext, for any plaintext
(the UTF-8 codec and the AEAD cipher are quantified over, assumed only to
satisfy their round-trip contracts; the nonce is any 12-byte value, matching
the 12-byte split performed by `decrypt_token`). -/
theorem encrypt_decrypt_roundtrip (P : CryptoPrims) (env : String) (nonce : List Nat)
    (p : String)
    (henv : (env == "" || decide (env.length < 32)) = false)
    (hn12 : nonce.length = 12)
    (hnb : ∀ b ∈ nonce, b < 256)
    (hct : ∀ b ∈ P.aeadEnc (derive_key P env mcpContext) nonce (P.utf8enc p), b < 256)
    (hdec : ∀ k n m, P.aeadDec k n (P.aeadEnc k n m) = some m)
    (hutf : ∀ s, P.utf8dec (P.utf8enc s) = some s) :
    ∀ c, encrypt_token P env nonce p = .ok c → decrypt_token P env c = .ok p := by
  intro c hc
  have hball : ∀ b ∈ nonce ++ P.aeadEnc (derive_key P env mcpContext) nonce (P.utf8enc p),
      b < 256 := by
    intro b hb
    rcases List.mem_append.mp hb with h | h
    · exact hnb b h
    · exact hct b h
  simp only [encrypt_token, get_master_key, henv, Bool.false_eq_true, if_false,
    Except.ok.injEq] at hc
  subst hc
  simp only [decrypt_token, get_master_key, henv, Bool.false_eq_true, if_false,
    b64decode_b64encode _ hball, List.take_left' hn12, List.drop_left' hn12,
    hdec, hutf]

/-- Plain instantiations of the external primitives for concrete
evaluation: trivial KDF, an AEAD that is the identity on the message, and a
codec storing each character's code point. -/
def idPrims : CryptoPrims :=
  { hkdf := fun _ _ => []
    aeadEnc := fun _ _ m => m
    aeadDec := fun _ _ c => some c
    utf8enc := fun s => s.data.map Char.toNat
    utf8dec := fun l => some ⟨l.map Char.ofNat⟩ }

theorem idPrims_utf8_roundtrip (s : String) :
    idPrims.utf8dec (idPrims.utf8enc s) = some s := by
  show some (⟨(s.data.map Char.toNat).map Char.ofNat⟩ : String) = some s
  rw [List.map_map]
  have hcomp : (Char.ofNat ∘ Char.toNat) = id := funext Char.ofNat_toNat
  rw [hcomp, List.map_id]

def envW : String := "0123456789abcdef0123456789abcdef"

def nonceW : List Nat := [0, 1, 2, 3, 4, 5, 6, 7, 8, 9, 10, 11]

/-- Witness for C6: a concrete encrypt/decrypt round trip. -/
theorem encrypt_decrypt_roundtrip_witness :
    decrypt_token idPrims envW (b64encodeBytes (nonceW ++ idPrims.utf8enc "ok"))
      = .ok "ok" := by
  exact encrypt_decrypt_roundtrip idPrims envW nonceW "ok" (by decide) rfl
    (by decide) (by decide) (fun k n m => rfl) idPrims_utf8_roundtrip
    (b64encodeBytes (nonceW ++ idPrims.utf8enc "ok")) rfl

/-- C7: the persisted value determines the nonce (the first 12 decoded
bytes), so two calls of `encrypt_token` on the same plaintext that draw
distinct fresh nonces produce distinct persisted values — the
non-determinism of encryption made explicit over the random nonce. -/
theorem encrypt_token_distinct_nonces (P : CryptoPrims) (env : String)
    (n1 n2 : List Nat) (p : String)
    (henv : (env == "" || decide (env.length < 32)) = false)
    (h1 : n1.length = 12) (h2 : n2.length = 12)
    (hb1 : ∀ b ∈ n1, b < 256) (hb2 : ∀ b ∈ n2, b < 256)
    (hc1 : ∀ b ∈ P.aeadEnc (derive_key P env mcpContext) n1 (P.utf8enc p), b < 256)
    (hc2 : ∀ b ∈ P.aeadEnc (derive_key P env mcpContext) n2 (P.utf8enc p), b < 256)
    (hne : n1 ≠ n2) :
    encrypt_token P env n1 p ≠ encrypt_token P env n2 p := by
  intro h
  have hball1 : ∀ b ∈ n1 ++ P.aeadEnc (derive_key P env mcpContext) n1 (P.utf8enc p),
      b < 256 := by
    intro b hb
    rcases List.mem_append.mp hb with hh | hh
    · exact hb1 b hh
    · exact hc1 b hh
  have hball2 : ∀ b ∈ n2 ++ P.aeadEnc (derive_key P env mcpContext) n2 (P.utf8enc p),
      b < 256 := by
    intro b hb
    rcases List.mem_append.mp hb with hh | hh
    · exact hb2 b hh
    · exact hc2 b hh
  simp only [encrypt_token, get_master_key, henv, Bool.false_eq_true, if_false,
    Except.ok.injEq] at h
  have hdecoded := congrArg b64decodeBytes h
  rw [b64decode_b64encode _ hball1, b64decode_b64encode _ hball2] at hdecoded
  have htake := congrArg (List.take 12) hdecoded
  rw [List.take_left' h1, List.take_left' h2] at htake
  exact hne htake

def nonceW2 : List Nat := [1, 1, 2, 3, 4, 5, 6, 7, 8, 9, 10, 11]

/-- Witness for C7: two concrete encryptions of the same plaintext under
distinct nonces differ. -/
theorem encrypt_token_distinct_nonces_witness :
    encrypt_token idPrims envW nonceW "ok" ≠ encrypt_token idPrims envW nonceW2 "ok" := by
  exact encrypt_token_distinct_nonces idPrims envW nonceW nonceW2 "ok" (by decide)
    rfl rfl (by decide) (by decide) (by decide) (by decide) (by decide)

/-- C8: the key-rotation command aborts with zero records modified on every
precondition violation — old key shorter than 32 characters, new
environment key absent or shorter than 32 characters, or old and new keys
identical — and dry-run mode also modifies nothing; in all those cases the
outcome is never a completed rotation, and a clean dry run reports the
count of affected records (connections with a non-empty access token). -/
theorem rotate_handle_aborts (P : CryptoPrims) (old_key : String) (dry_run : Bool)
    (env : String) (nonces : Nat → List Nat) (conns : List McpUserConnection)
    (h : old_key.length < 32 ∨ env = "" ∨ env.length < 32 ∨ old_key = env
          ∨ dry_run = true) :
    (rotate_handle P old_key dry_run env nonces conns).2 = conns
    ∧ (∀ s er t, (rotate_handle P old_key dry_run env nonces conns).1
          ≠ RotateOutcome.done s er t)
    ∧ (dry_run = true → ¬old_key.length < 32
        → (env == "" || decide (env.length < 32)) = false → (old_key == env) = false
        → (rotate_handle P old_key dry_run env nonces conns).1
            = RotateOutcome.dryRunReport
                ((conns.filter (fun c => match c.access_token with
                  | none => false
                  | some v => !v.isEmpty)).length)) := by
  unfold rotate_handle
  by_cases h1 : old_key.length < 32
  · rw [if_pos h1]
    exact ⟨rfl, fun s er t hc => RotateOutcome.noConfusion hc,
      fun _ hno _ _ => absurd h1 hno⟩
  · rw [if_neg h1]
    by_cases h2 : (env == "" || decide (env.length < 32)) = true
    · rw [if_pos h2]
      refine ⟨rfl, fun s er t hc => RotateOutcome.noConfusion hc, ?_⟩
      intro _ _ hfalse _
      rw [h2] at hfalse
      cases hfalse
    · rw [if_neg h2]
      by_cases h3 : (old_key == env) = true
      · rw [if_pos h3]
        refine ⟨rfl, fun s er t hc => RotateOutcome.noConfusion hc, ?_⟩
        intro _ _ _ hfalse
        rw [h3] at hfalse
        cases hfalse
      · rw [if_neg h3]
        have hd : dry_run = true := by
          rcases h with hv | hv | hv | hv | hv
          · exact absurd hv h1
          · exact absurd (show (env == "" || decide (env.length < 32)) = true by
              rw [hv]; rfl) h2
          · exact absurd (show (env == "" || decide (env.length < 32)) = true by
              simp [hv]) h2
          · exact absurd (show (old_key == env) = true by simp [hv]) h3
          · exact hv
        subst hd
        rw [if_pos rfl]
        exact ⟨rfl, fun s er t hc => RotateOutcome.noConfusion hc,
          fun _ _ _ _ => rfl⟩

def connW : McpUserConnection :=
  ⟨1, some [65, 66], some [67, 68], some 100, ConnStatus.connected, none⟩

/-- Witness for C8: with an identical old and new key the command aborts
and the stored connection is untouched; a clean dry run reports one
affected record and also touches nothing. -/
theorem rotate_handle_aborts_witness :
    (rotate_handle idPrims envW false envW (fun _ => []) [connW]).2 = [connW]
    ∧ (rotate_handle idPrims "0123456789abcdef0123456789abcdeX" true envW
        (fun _ => []) [connW]).2 = [connW]
    ∧ (rotate_handle idPrims "0123456789abcdef0123456789abcdeX" true envW
        (fun _ => []) [connW]).1 = RotateOutcome.dryRunReport 1 := by
  refine ⟨?_, ?_, ?_⟩
  · exact (rotate_handle_aborts idPrims envW false envW (fun _ => []) [connW]
      (Or.inr (Or.inr (Or.inr (Or.inl rfl))))).1
  · exact (rotate_handle_aborts idPrims "0123456789abcdef0123456789abcdeX" true envW
      (fun _ => []) [connW] (Or.inr (Or.inr (Or.inr (Or.inr rfl))))).1
  · exact ((rotate_handle_aborts idPrims "0123456789abcdef0123456789abcdeX" true envW
      (fun _ => []) [connW] (Or.inr (Or.inr (Or.inr (Or.inr rfl))))).2.2 rfl
      (by decide) (by decide) (by decide)).trans (by decide)

/-- C9: a non-success response from the token endpoint moves a connected
connection (holding a decryptable refresh token) to the `error` status with
a recorded error message, and — since the periodic sweep selects only rows
whose status is `connected` — the resulting row is never selected by any
subsequent refresh sweep. -/
theorem refresh_failure_terminal (dec : String → Option String) (enc : String → String)
    (svc : McpService) (resp : TokenResponse) (now : Nat) (conn : RefreshConn)
    (_hconn : conn.status = ConnStatus.connected)
    (ert : String) (hrt : conn.refresh_token = some ert)
    (hdecodes : (dec ert).isSome = true)
    (hsec : ∀ es, svc.oauth_client_secret = some es → (dec es).isSome = true)
    (hresp : resp.status ≠ 200) :
    ∃ c2, refresh_access_token dec enc svc resp now conn = some (false, c2)
      ∧ c2.status = ConnStatus.error
      ∧ c2.error_message = some ("Refresh failed: " ++ toString resp.status)
      ∧ ∀ t, sweep_selects t c2 = false := by
  refine ⟨{ conn with
      status := ConnStatus.error
      error_message := some ("Refresh failed: " ++ toString resp.status) }, ?_, rfl, rfl, ?_⟩
  · cases hd : dec ert with
    | none => rw [hd] at hdecodes; cases hdecodes
    | some rt =>
      have hsok : (match svc.oauth_client_secret with
          | none => true
          | some es => (dec es).isSome) = true := by
        cases hs : svc.oauth_client_secret with
        | none => rfl
        | some es => exact hsec es hs
      simp only [refresh_access_token, hrt, hd, hsok, Bool.not_true, Bool.false_eq_true,
        if_false, if_pos hresp]
  · intro t
    unfold sweep_selects
    simp only [show (ConnStatus.error == ConnStatus.connected) = false from rfl,
      Bool.false_and]

/-- Witness for C9: a concrete 400 response on a connected row yields the
error row that no sweep selects. -/
theorem refresh_failure_terminal_witness :
    ∃ c2, refresh_access_token (fun _ => some "tok") (fun s => s) ⟨"cid", none⟩
        ⟨400, none, none, none⟩ 0
        ⟨some "enc-at", some "enc-rt", some 50, ConnStatus.connected, none⟩
        = some (false, c2)
      ∧ c2.status = ConnStatus.error
      ∧ c2.error_message = some ("Refresh failed: " ++ toString (400 : Nat))
      ∧ ∀ t, sweep_selects t c2 = false := by
  exact refresh_failure_terminal (fun _ => some "tok") (fun s => s) ⟨"cid", none⟩
    ⟨400, none, none, none⟩ 0
    ⟨some "enc-at", some "enc-rt", some 50, ConnStatus.connected, none⟩
    rfl "enc-rt" rfl rfl (fun es hes => Option.noConfusion hes) (by decide)
